import Mathlib

/-
Verification development for the RPN calculator core
(src/lib/rpn-calculator.ts of eniolaSamuel/RPNCalculator).

Modelling conventions for JavaScript numbers:
- A JS number is modelled by `JsNum`: a finite value carried as an exact
  rational, positive or negative infinity, NaN, or the `undefined` value
  (which `Array.prototype.pop` yields on an empty array and which every
  numeric operation coerces to NaN).  The negative zero of IEEE 754 is
  identified with zero: the only place the sign of zero could matter in
  this program is the divisor check of "/", and JS strict equality has
  -0 === 0, so the identification is behaviour-preserving.
- Finite arithmetic is computed exactly in the rationals.  Overflow of a
  finite result to an infinity is modelled with the exact double-precision
  overflow threshold 2^1024 - 2^970; rounding of non-overflowing
  magnitudes to the nearest representable double is abstracted away (the
  exact value is kept), which none of the verified claims depend on.
- The irrational-valued library functions (Math.sqrt on non-squares,
  Math.sin, Math.cos, Math.tan, Math.pow with a fractional exponent, and
  the decimal rendering of non-integers) are abstracted as the fields of a
  `FloatModel` parameter; theorems are proved for every such model, hence
  in particular for the actual double-precision implementations.
  Math.sqrt is computed exactly on perfect squares, and Math.pow exactly
  on integer exponents, matching the correctly-rounded double results for
  representable values.
-/

set_option exponentiation.threshold 1100
set_option maxRecDepth 4000

namespace RPN

/-- The set of characters matched by the JS whitespace class (the token
separator `/\s+/`, `String.prototype.trim`, and the leading-space skip of
`Number.parseFloat` all use this class). -/
def jsWs (c : Char) : Bool :=
  c.toNat == 0x20 || c.toNat == 0x09 || c.toNat == 0x0A || c.toNat == 0x0D ||
  c.toNat == 0x0B || c.toNat == 0x0C || c.toNat == 0xA0 || c.toNat == 0x1680 ||
  (0x2000 ≤ c.toNat && c.toNat ≤ 0x200A) ||
  c.toNat == 0x2028 || c.toNat == 0x2029 || c.toNat == 0x202F ||
  c.toNat == 0x205F || c.toNat == 0x3000 || c.toNat == 0xFEFF

/-- A JavaScript number (or the `undefined` value produced by popping an
empty array): a finite value kept as an exact rational, an infinity, or
NaN.  Negative zero is identified with zero (see the header comment). -/
inductive JsNum where
  | fin (q : ℚ)
  | inf
  | negInf
  | nan
  | undef
deriving DecidableEq, Repr

/-- The `isFinite` predicate of JS: true exactly on finite numbers
(false on NaN, the infinities, and undefined). -/
def JsNum.isFinB : JsNum → Bool
  | .fin _ => true
  | _ => false

/-- The smallest magnitude at which an exact real result rounds to an
infinity in double precision (round to nearest, ties to even):
2^1024 - 2^970. -/
def ovfThreshold : ℚ := ((2 ^ 1024 - 2 ^ 970 : ℕ) : ℚ)

/-- Injects an exact finite result into `JsNum`, overflowing to a signed
infinity at the double-precision overflow threshold. -/
def roundOvf (q : ℚ) : JsNum :=
  if ovfThreshold ≤ q then .inf
  else if q ≤ -ovfThreshold then .negInf
  else .fin q

/-- The exact rational value of the double `Math.PI`. -/
def piA : ℚ := 884279719003555 / 281474976710656

/-- The abstracted double-precision library functions: the values of
Math.sqrt on positive non-square rationals, of the trigonometric
functions on finite inputs, of Math.pow on a positive base and finite
non-integer exponent, and the decimal rendering of non-integer finite
numbers.  All verified statements hold for every model. -/
structure FloatModel where
  sqrtA : ℚ → ℚ
  sinA : ℚ → ℚ
  cosA : ℚ → ℚ
  tanA : ℚ → ℚ
  powA : ℚ → ℚ → ℚ
  numToStr : ℚ → String

/-- A trivial model, used to instantiate theorems at concrete inputs
whose evaluation never consults the abstracted functions. -/
def M0 : FloatModel :=
  { sqrtA := fun _ => 0, sinA := fun _ => 0, cosA := fun _ => 0,
    tanA := fun _ => 0, powA := fun _ _ => 0, numToStr := fun _ => "" }

/-- The JS `<` comparison on numbers: false whenever either side is NaN
(or undefined, which coerces to NaN). -/
def ltJ : JsNum → JsNum → Bool
  | .nan, _ => false
  | .undef, _ => false
  | _, .nan => false
  | _, .undef => false
  | .negInf, .negInf => false
  | .negInf, _ => true
  | _, .negInf => false
  | .inf, _ => false
  | _, .inf => true
  | .fin x, .fin y => decide (x < y)

/-- JS numeric addition (`a + b` on numbers). -/
def addJ : JsNum → JsNum → JsNum
  | .nan, _ => .nan
  | .undef, _ => .nan
  | _, .nan => .nan
  | _, .undef => .nan
  | .inf, .negInf => .nan
  | .negInf, .inf => .nan
  | .inf, _ => .inf
  | _, .inf => .inf
  | .negInf, _ => .negInf
  | _, .negInf => .negInf
  | .fin x, .fin y => roundOvf (x + y)

/-- JS numeric subtraction (`a - b` on numbers). -/
def subJ : JsNum → JsNum → JsNum
  | .nan, _ => .nan
  | .undef, _ => .nan
  | _, .nan => .nan
  | _, .undef => .nan
  | .inf, .inf => .nan
  | .negInf, .negInf => .nan
  | .inf, _ => .inf
  | .negInf, _ => .negInf
  | _, .inf => .negInf
  | _, .negInf => .inf
  | .fin x, .fin y => roundOvf (x - y)

/-- JS numeric multiplication (`a * b` on numbers). -/
def mulJ : JsNum → JsNum → JsNum
  | .nan, _ => .nan
  | .undef, _ => .nan
  | _, .nan => .nan
  | _, .undef => .nan
  | .inf, .inf => .inf
  | .inf, .negInf => .negInf
  | .negInf, .inf => .negInf
  | .negInf, .negInf => .inf
  | .inf, .fin y => if 0 < y then .inf else if y < 0 then .negInf else .nan
  | .fin x, .inf => if 0 < x then .inf else if x < 0 then .negInf else .nan
  | .negInf, .fin y => if 0 < y then .negInf else if y < 0 then .inf else .nan
  | .fin x, .negInf => if 0 < x then .negInf else if x < 0 then .inf else .nan
  | .fin x, .fin y => roundOvf (x * y)

/-- JS numeric division (`a / b` on numbers); division by the (unsigned)
zero of the model follows the +0 rules of IEEE 754. -/
def divJ : JsNum → JsNum → JsNum
  | .nan, _ => .nan
  | .undef, _ => .nan
  | _, .nan => .nan
  | _, .undef => .nan
  | .inf, .inf => .nan
  | .inf, .negInf => .nan
  | .negInf, .inf => .nan
  | .negInf, .negInf => .nan
  | .inf, .fin y => if 0 ≤ y then .inf else .negInf
  | .negInf, .fin y => if 0 ≤ y then .negInf else .inf
  | .fin _, .inf => .fin 0
  | .fin _, .negInf => .fin 0
  | .fin x, .fin y =>
    if y = 0 then (if 0 < x then .inf else if x < 0 then .negInf else .nan)
    else roundOvf (x / y)

/-- Whether a rational is an odd integer (the parity tests of the ES
exponentiation algorithm). -/
def isOddQ (q : ℚ) : Bool := q.den = 1 && decide (q.num % 2 ≠ 0)

/-- `Math.pow`, following the Number::exponentiate algorithm of the
ECMAScript specification case by case; exact on integer exponents, with
the positive-base fractional-exponent case abstracted by the model. -/
def powJ (M : FloatModel) (x y : JsNum) : JsNum :=
  match x, y with
  | _, .nan => .nan
  | _, .undef => .nan
  | .undef, _ => .nan
  | b, .fin e =>
    if e = 0 then .fin 1
    else
      match b with
      | .nan => .nan
      | .undef => .nan
      | .inf => if 0 < e then .inf else .fin 0
      | .negInf =>
        if 0 < e then (if isOddQ e then .negInf else .inf) else .fin 0
      | .fin bq =>
        if bq = 0 then (if 0 < e then .fin 0 else .inf)
        else if e.den = 1 then roundOvf (bq ^ e.num)
        else if 0 < bq then roundOvf (M.powA bq e)
        else .nan
  | b, .inf =>
    match b with
    | .nan => .nan
    | .undef => .nan
    | .inf => .inf
    | .negInf => .inf
    | .fin bq =>
      if bq = 1 ∨ bq = -1 then .nan else if 1 < |bq| then .inf else .fin 0
  | b, .negInf =>
    match b with
    | .nan => .nan
    | .undef => .nan
    | .inf => .fin 0
    | .negInf => .fin 0
    | .fin bq =>
      if bq = 1 ∨ bq = -1 then .nan else if 1 < |bq| then .fin 0 else .inf

/-- The exact square root of a nonnegative rational when it is a perfect
square, and `none` otherwise. -/
def ratSqrt (q : ℚ) : Option ℚ :=
  let n := q.num.toNat
  let d := q.den
  let sn := Nat.sqrt n
  let sd := Nat.sqrt d
  if sn * sn = n ∧ sd * sd = d then some ((sn : ℚ) / (sd : ℚ)) else none

/-- `Math.sqrt`: NaN on negative or NaN inputs, exact on perfect squares,
abstracted by the model otherwise. -/
def sqrtJ (M : FloatModel) : JsNum → JsNum
  | .nan => .nan
  | .undef => .nan
  | .inf => .inf
  | .negInf => .nan
  | .fin q =>
    if q < 0 then .nan
    else
      match ratSqrt q with
      | some r => .fin r
      | none => .fin (M.sqrtA q)

/-- `Math.sin`: NaN on non-finite inputs, abstracted on finite inputs. -/
def sinJ (M : FloatModel) : JsNum → JsNum
  | .fin q => .fin (M.sinA q)
  | _ => .nan

/-- `Math.cos`: NaN on non-finite inputs, abstracted on finite inputs. -/
def cosJ (M : FloatModel) : JsNum → JsNum
  | .fin q => .fin (M.cosA q)
  | _ => .nan

/-- `Math.tan`: NaN on non-finite inputs, abstracted on finite inputs. -/
def tanJ (M : FloatModel) : JsNum → JsNum
  | .fin q => .fin (M.tanA q)
  | _ => .nan

/-- The `toRadians` helper of the source: `degrees * (Math.PI / 180)`. -/
def toRadiansJ (degrees : JsNum) : JsNum := mulJ degrees (.fin (piA / 180))

/-- Splits off the longest leading run of ASCII decimal digits. -/
def takeDigits : List Char → List Char × List Char
  | [] => ([], [])
  | c :: cs =>
    if c.isDigit then
      let pr := takeDigits cs
      (c :: pr.1, pr.2)
    else ([], c :: cs)

/-- The natural number denoted by a list of decimal digits. -/
def digitsVal (ds : List Char) : ℕ :=
  ds.foldl (fun n c => 10 * n + (c.toNat - 48)) 0

/-- Consumes an optional leading sign, returning +1 or -1. -/
def readSign : List Char → Int × List Char
  | '+' :: cs => (1, cs)
  | '-' :: cs => (-1, cs)
  | cs => (1, cs)

/-- Drops a literal character sequence from the front of the input,
failing if it is not present. -/
def dropLit : List Char → List Char → Option (List Char)
  | [], cs => some cs
  | _ :: _, [] => none
  | p :: ps, c :: cs => if c = p then dropLit ps cs else none

/-- Parses the mantissa of a decimal literal (`digits [. digits]` or
`. digits`), returning its exact value and the unconsumed remainder;
fails when not a single digit is present. -/
def parseMantissa (cs : List Char) : Option (ℚ × List Char) :=
  match takeDigits cs with
  | ([], rest) =>
    match rest with
    | '.' :: cs2 =>
      match takeDigits cs2 with
      | ([], _) => none
      | (d2, r) => some ((digitsVal d2 : ℚ) / (10 : ℚ) ^ d2.length, r)
    | _ => none
  | (d1, rest) =>
    match rest with
    | '.' :: cs2 =>
      match takeDigits cs2 with
      | (d2, r) =>
        some ((digitsVal d1 : ℚ) + (digitsVal d2 : ℚ) / (10 : ℚ) ^ d2.length, r)
    | _ => some ((digitsVal d1 : ℚ), rest)

/-- Parses an optional exponent part `[eE][+-]?digits`; consumes nothing
(exponent 0) unless the whole part, including at least one digit, is
present. -/
def parseExponent : List Char → Int × List Char
  | [] => (0, [])
  | c :: cs =>
    if c = 'e' || c = 'E' then
      match cs with
      | '+' :: cs2 =>
        (match takeDigits cs2 with
         | ([], _) => (0, c :: cs)
         | (ds, r) => (Int.ofNat (digitsVal ds), r))
      | '-' :: cs2 =>
        (match takeDigits cs2 with
         | ([], _) => (0, c :: cs)
         | (ds, r) => (-Int.ofNat (digitsVal ds), r))
      | _ =>
        (match takeDigits cs with
         | ([], _) => (0, c :: cs)
         | (ds, r) => (Int.ofNat (digitsVal ds), r))
    else (0, c :: cs)

/-- The longest-prefix decimal-literal parse at the heart of
`Number.parseFloat`: an optional sign followed by either the literal
`Infinity` or a mantissa with an optional exponent.  Returns the value
and the unconsumed remainder, or `none` when no prefix parses. -/
def parseFloatCore (cs : List Char) : Option (JsNum × List Char) :=
  let sr := readSign cs
  match dropLit ("Infinity".data) sr.2 with
  | some rest => some (if sr.1 = 1 then (.inf, rest) else (.negInf, rest))
  | none =>
    match parseMantissa sr.2 with
    | none => none
    | some (m, r) =>
      let er := parseExponent r
      some (roundOvf ((sr.1 : ℚ) * m * (10 : ℚ) ^ er.1), er.2)

/-- `Number.parseFloat`: skips leading whitespace, parses the longest
valid decimal-literal prefix, and returns NaN when there is none. -/
def parseFloatJ (t : String) : JsNum :=
  match parseFloatCore (t.data.dropWhile jsWs) with
  | none => .nan
  | some vr => vr.1

/-- The `isNumber` predicate of the source:
`!isNaN(parseFloat(token)) && isFinite(parseFloat(token))`, i.e. the
parsed value is finite (`isFinite` is already false on NaN). -/
def isNumber (token : String) : Bool := (parseFloatJ token).isFinB

/-- The number classification in the words of the specification: the
WHOLE token parses as a value under the decimal literal grammar, and that
value is finite.  Stated for comparison with `isNumber`, which accepts
any token whose longest valid prefix has a finite value. -/
def specNumberLiteral (token : String) : Bool :=
  match parseFloatCore (token.data.dropWhile jsWs) with
  | some (v, rest) => rest.isEmpty && v.isFinB
  | none => false

/-- The classified failures of the evaluator, one constructor per throw
site of the source. -/
inductive RPNError where
  | emptyExpression
  | insufficientOperands (operator : String)
  | divisionByZero
  | unknownBinaryOperator (operator : String)
  | negativeSqrt
  | unknownUnaryOperator (operator : String)
  | unknownToken (token : String)
  | tooManyOperands
  | insufficientOperandsFinal
deriving DecidableEq, Repr

/-- The SUPPORTED_OPERATORS set of the source. -/
def SUPPORTED_OPERATORS : List String :=
  ["+", "-", "*", "/", "^", "sqrt", "sin", "cos", "tan"]

/-- The unary-operator list of the dispatch in `evaluateRPN`. -/
def unaryOps : List String := ["sqrt", "sin", "cos", "tan"]

/-- `processBinaryOperator` of the source: guards the arity, pops `b`
then `a`, dispatches on the operator, and pushes the single result.  The
stack is a list with its head at the top. -/
def processBinaryOperator (M : FloatModel) (stack : List JsNum)
    (operator : String) : Except RPNError (List JsNum) :=
  match stack with
  | b :: a :: rest =>
    if operator = "+" then .ok (addJ a b :: rest)
    else if operator = "-" then .ok (subJ a b :: rest)
    else if operator = "*" then .ok (mulJ a b :: rest)
    else if operator = "/" then
      if b = .fin 0 then .error .divisionByZero
      else .ok (divJ a b :: rest)
    else if operator = "^" then .ok (powJ M a b :: rest)
    else .error (.unknownBinaryOperator operator)
  | _ => .error (.insufficientOperands operator)

/-- `processUnaryOperator` of the source: guards the arity, pops `a`,
dispatches on the operator (with the negative guard on sqrt and the
degree-to-radian conversion on the trigonometric functions), and pushes
the result. -/
def processUnaryOperator (M : FloatModel) (stack : List JsNum)
    (operator : String) : Except RPNError (List JsNum) :=
  match stack with
  | a :: rest =>
    if operator = "sqrt" then
      if ltJ a (.fin 0) then .error .negativeSqrt
      else .ok (sqrtJ M a :: rest)
    else if operator = "sin" then .ok (sinJ M (toRadiansJ a) :: rest)
    else if operator = "cos" then .ok (cosJ M (toRadiansJ a) :: rest)
    else if operator = "tan" then .ok (tanJ M (toRadiansJ a) :: rest)
    else .error (.unknownUnaryOperator operator)
  | [] => .error (.insufficientOperands operator)

/-- The body of the token loop of `evaluateRPN`: push a number, dispatch
an operator, or fail with the unknown-token error. -/
def evalStep (M : FloatModel) (stack : List JsNum) (token : String) :
    Except RPNError (List JsNum) :=
  if isNumber token then .ok (parseFloatJ token :: stack)
  else if token ∈ SUPPORTED_OPERATORS then
    if token ∈ unaryOps then processUnaryOperator M stack token
    else processBinaryOperator M stack token
  else .error (.unknownToken token)

/-- The token loop of `evaluateRPN`: left-to-right scan, stopping at the
first failure. -/
def evalTokens (M : FloatModel) : List String → List JsNum →
    Except RPNError (List JsNum)
  | [], stack => .ok stack
  | t :: ts, stack =>
    match evalStep M stack t with
    | .ok s2 => evalTokens M ts s2
    | .error e => .error e

/-- Splitting a character list on runs of characters satisfying a
predicate, keeping an accumulator of the token in progress.  With the
whitespace class as the predicate and on trimmed input this is exactly
`trim().split(/\\s+/)` of the source (and on untrimmed nonblank input it
also drops the empty fragments that the JS split would produce at the
ends, which the callers never observe: `evaluateRPN` trims first and
`getEvaluationSteps` skips empty tokens as unknown). -/
def splitOnPred (p : Char → Bool) : List Char → List Char → List String
  | [], [] => []
  | [], acc => [String.mk acc.reverse]
  | c :: cs, acc =>
    cond (p c)
      (match acc with
       | [] => splitOnPred p cs []
       | _ => String.mk acc.reverse :: splitOnPred p cs [])
      (splitOnPred p cs (c :: acc))

/-- The tokenizer: `expression.trim().split(/\\s+/)`. -/
def tokenizeJs (expression : String) : List String :=
  splitOnPred jsWs expression.data []

/-- The emptiness guard of `evaluateRPN`:
`!expression || expression.trim().length === 0`, i.e. every character is
whitespace (vacuously so for the empty string, which is falsy). -/
def isBlankJs (expression : String) : Bool := expression.data.all jsWs

/-- `evaluateRPN` of the source: the emptiness guard, the token scan, and
the final-stack check (exactly one value must remain). -/
def evaluateRPN (M : FloatModel) (expression : String) :
    Except RPNError JsNum :=
  if isBlankJs expression then .error .emptyExpression
  else
    match evalTokens M (tokenizeJs expression) [] with
    | .error e => .error e
    | .ok stack =>
      match stack with
      | [v] => .ok v
      | [] => .error .insufficientOperandsFinal
      | _ :: _ :: _ => .error .tooManyOperands

/-- `validateRPN` of the source: runs the evaluator and converts any
failure to `false`. -/
def validateRPN (M : FloatModel) (expression : String) : Bool :=
  match evaluateRPN M expression with
  | .ok _ => true
  | .error _ => false

/-- One record of the diagnostic trace of `getEvaluationSteps`: the
token, a snapshot of the stack after applying it (head at the top), and
a description of the action. -/
structure EvaluationStep where
  token : String
  stack : List JsNum
  action : String
deriving DecidableEq, Repr

/-- The string interpolation of a JS number (exact for integers, NaN,
infinities and undefined; abstracted by the model for non-integer finite
values, whose shortest-round-trip rendering none of the claims inspect). -/
def jsNumToString (M : FloatModel) : JsNum → String
  | .nan => "NaN"
  | .inf => "Infinity"
  | .negInf => "-Infinity"
  | .undef => "undefined"
  | .fin q => if q.den = 1 then toString q.num else M.numToStr q

/-- `stack.pop()` of JS: yields `undefined` on an empty array. -/
def popJ : List JsNum → JsNum × List JsNum
  | [] => (.undef, [])
  | x :: xs => (x, xs)

/-- The body of the token loop of `getEvaluationSteps`: a number is
pushed and recorded, one of the nine operators is applied WITHOUT any
arity, zero-divisor or negative-root guard (pops of an empty stack yield
undefined, which the arithmetic coerces to NaN) and recorded, and every
other token yields no step and leaves the stack unchanged. -/
def stepOnce (M : FloatModel) (stack : List JsNum) (token : String) :
    List JsNum × Option EvaluationStep :=
  if isNumber token then
    let stack2 := parseFloatJ token :: stack
    (stack2, some { token := token, stack := stack2,
                    action := "Push " ++ token })
  else if token ∈ SUPPORTED_OPERATORS then
    if token ∈ unaryOps then
      let pa := popJ stack
      let result :=
        if token = "sqrt" then sqrtJ M pa.1
        else if token = "sin" then sinJ M (toRadiansJ pa.1)
        else if token = "cos" then cosJ M (toRadiansJ pa.1)
        else if token = "tan" then tanJ M (toRadiansJ pa.1)
        else .nan
      let stack2 := result :: pa.2
      (stack2, some { token := token, stack := stack2,
                      action := "Apply " ++ token ++ " to " ++
                        jsNumToString M pa.1 })
    else
      let pb := popJ stack
      let pa := popJ pb.2
      let result :=
        if token = "+" then addJ pa.1 pb.1
        else if token = "-" then subJ pa.1 pb.1
        else if token = "*" then mulJ pa.1 pb.1
        else if token = "/" then divJ pa.1 pb.1
        else if token = "^" then powJ M pa.1 pb.1
        else .nan
      let stack2 := result :: pa.2
      (stack2, some { token := token, stack := stack2,
                      action := "Apply " ++ jsNumToString M pa.1 ++ " " ++
                        token ++ " " ++ jsNumToString M pb.1 })
  else (stack, none)

/-- The token loop of `getEvaluationSteps`, accumulating the recorded
steps in order. -/
def stepsAux (M : FloatModel) : List String → List JsNum →
    List EvaluationStep
  | [], _ => []
  | token :: ts, stack =>
    match stepOnce M stack token with
    | (stack2, none) => stepsAux M ts stack2
    | (stack2, some st) => st :: stepsAux M ts stack2

/-- `getEvaluationSteps` of the source: the unguarded diagnostic trace
(note: no emptiness guard; the scan starts from the token split). -/
def getEvaluationSteps (M : FloatModel) (expression : String) :
    List EvaluationStep :=
  stepsAux M (tokenizeJs expression) []

/-- The scan distributes over concatenation of token sequences: the
state reached after a prefix is the state the rest of the scan starts
from. -/
lemma evalTokens_append (M : FloatModel) (ts1 ts2 : List String)
    (s : List JsNum) :
    evalTokens M (ts1 ++ ts2) s =
      match evalTokens M ts1 s with
      | .ok s1 => evalTokens M ts2 s1
      | .error e => .error e := by
  induction ts1 generalizing s with
  | nil => rfl
  | cons t ts ih =>
    simp only [List.cons_append, evalTokens]
    cases he : evalStep M s t with
    | ok s1 => exact ih s1
    | error e => rfl

/-- A successful unary-operator application leaves a non-empty stack. -/
lemma processUnary_ok_ne_nil (M : FloatModel) (s : List JsNum)
    (op : String) (s2 : List JsNum)
    (h : processUnaryOperator M s op = .ok s2) : s2 ≠ [] := by
  match s with
  | [] => simp [processUnaryOperator] at h
  | a :: rest =>
    simp only [processUnaryOperator] at h
    split_ifs at h <;> simp only [Except.ok.injEq] at h <;> subst h <;> simp

/-- A successful binary-operator application leaves a non-empty stack. -/
lemma processBinary_ok_ne_nil (M : FloatModel) (s : List JsNum)
    (op : String) (s2 : List JsNum)
    (h : processBinaryOperator M s op = .ok s2) : s2 ≠ [] := by
  match s with
  | [] => simp [processBinaryOperator] at h
  | [a] => simp [processBinaryOperator] at h
  | b :: a :: rest =>
    simp only [processBinaryOperator] at h
    split_ifs at h <;> simp only [Except.ok.injEq] at h <;> subst h <;> simp

/-- Every successfully processed token leaves a non-empty stack: a
number pushes a value, and an operator that passes its arity guard
replaces its operands by one result on an otherwise preserved stack. -/
lemma evalStep_ok_ne_nil (M : FloatModel) (s : List JsNum) (t : String)
    (s2 : List JsNum) (h : evalStep M s t = .ok s2) : s2 ≠ [] := by
  unfold evalStep at h
  split_ifs at h with h1 h2 h3
  · simp only [Except.ok.injEq] at h
    subst h
    simp
  · exact processUnary_ok_ne_nil M s t s2 h
  · exact processBinary_ok_ne_nil M s t s2 h

/-- A successful scan of a non-empty token sequence ends with a
non-empty stack. -/
lemma evalTokens_ok_ne_nil (M : FloatModel) :
    ∀ (ts : List String) (s s2 : List JsNum), ts ≠ [] →
      evalTokens M ts s = .ok s2 → s2 ≠ [] := by
  intro ts
  induction ts with
  | nil => intro s s2 hne _; exact absurd rfl hne
  | cons t ts ih =>
    intro s s2 _ h
    simp only [evalTokens] at h
    cases he : evalStep M s t with
    | error err => simp only [he] at h; simp at h
    | ok s1 =>
      simp only [he] at h
      cases ts with
      | nil =>
        simp only [evalTokens, Except.ok.injEq] at h
        subst h
        exact evalStep_ok_ne_nil M s t s1 he
      | cons t2 ts2 => exact ih s1 s2 (by simp) h

/-- No throw site of the unary dispatch is the end-of-scan
insufficient-operands failure. -/
lemma processUnary_error_ne_final (M : FloatModel) (s : List JsNum)
    (op : String) (e : RPNError)
    (h : processUnaryOperator M s op = .error e) :
    e ≠ .insufficientOperandsFinal := by
  intro hfe
  subst hfe
  match s with
  | [] => simp [processUnaryOperator] at h
  | a :: rest =>
    simp only [processUnaryOperator] at h
    split_ifs at h <;> simp_all

/-- No throw site of the binary dispatch is the end-of-scan
insufficient-operands failure. -/
lemma processBinary_error_ne_final (M : FloatModel) (s : List JsNum)
    (op : String) (e : RPNError)
    (h : processBinaryOperator M s op = .error e) :
    e ≠ .insufficientOperandsFinal := by
  intro hfe
  subst hfe
  match s with
  | [] => simp [processBinaryOperator] at h
  | [a] => simp [processBinaryOperator] at h
  | b :: a :: rest =>
    simp only [processBinaryOperator] at h
    split_ifs at h <;> simp_all

/-- No failure of the token loop is the end-of-scan
insufficient-operands failure. -/
lemma evalStep_error_ne_final (M : FloatModel) (s : List JsNum)
    (t : String) (e : RPNError) (h : evalStep M s t = .error e) :
    e ≠ .insufficientOperandsFinal := by
  unfold evalStep at h
  split_ifs at h with h1 h2 h3
  · exact processUnary_error_ne_final M s t e h
  · exact processBinary_error_ne_final M s t e h
  · intro hfe
    subst hfe
    simp at h

/-- No failure of the whole scan is the end-of-scan
insufficient-operands failure. -/
lemma evalTokens_error_ne_final (M : FloatModel) :
    ∀ (ts : List String) (s : List JsNum) (e : RPNError),
      evalTokens M ts s = .error e → e ≠ .insufficientOperandsFinal := by
  intro ts
  induction ts with
  | nil => intro s e h; simp [evalTokens] at h
  | cons t ts ih =>
    intro s e h
    simp only [evalTokens] at h
    cases he : evalStep M s t with
    | error err =>
      simp only [he, Except.error.injEq] at h
      subst h
      exact evalStep_error_ne_final M s t err he
    | ok s1 =>
      simp only [he] at h
      exact ih s1 e h

/-- Splitting yields at least one token as soon as the input contains a
character failing the predicate or a token is in progress. -/
lemma splitOnPred_ne_nil (p : Char → Bool) :
    ∀ (cs acc : List Char), (∃ c ∈ cs, p c = false) ∨ acc ≠ [] →
      splitOnPred p cs acc ≠ [] := by
  intro cs
  induction cs with
  | nil =>
    intro acc h
    rcases h with h | h
    · rcases h with ⟨c, hc, _⟩
      exact absurd hc (List.not_mem_nil c)
    · cases acc with
      | nil => exact absurd rfl h
      | cons a as => simp [splitOnPred]
  | cons c cs ih =>
    intro acc h
    cases hw : p c with
    | true =>
      cases acc with
      | nil =>
        have hcs : ∃ c2 ∈ cs, p c2 = false := by
          rcases h with h | h
          · rcases h with ⟨c2, hc2, hf⟩
            rcases List.mem_cons.mp hc2 with hc2 | hc2
            · subst hc2; rw [hw] at hf; cases hf
            · exact ⟨c2, hc2, hf⟩
          · exact absurd rfl h
        simp only [splitOnPred, hw, cond_true]
        exact ih [] (Or.inl hcs)
      | cons a as =>
        simp only [splitOnPred, hw, cond_true]
        simp
    | false =>
      cases acc with
      | nil =>
        simp only [splitOnPred, hw, cond_false]
        exact ih [c] (Or.inr (by simp))
      | cons a as =>
        simp only [splitOnPred, hw, cond_false]
        exact ih (c :: a :: as) (Or.inr (by simp))

/-- A non-blank expression tokenizes to a non-empty token sequence. -/
lemma tokenizeJs_ne_nil (e : String) (hb : isBlankJs e = false) :
    tokenizeJs e ≠ [] := by
  apply splitOnPred_ne_nil
  left
  unfold isBlankJs at hb
  have h2 : ¬ ∀ x ∈ e.data, jsWs x = true := by
    rw [← List.all_eq_true]
    simp [hb]
  push_neg at h2
  rcases h2 with ⟨c, hc, hf⟩
  exact ⟨c, hc, by simpa using hf⟩

/-- The evaluator never surfaces the end-of-scan insufficient-operands
failure: the branch is dead code. -/
lemma evaluateRPN_ne_final (M : FloatModel) (e : String) :
    evaluateRPN M e ≠ .error .insufficientOperandsFinal := by
  unfold evaluateRPN
  split_ifs with hb
  · simp
  · have hb2 : isBlankJs e = false := by simpa using hb
    cases hscan : evalTokens M (tokenizeJs e) [] with
    | error err =>
      simp only [hscan]
      intro hx
      simp only [Except.error.injEq] at hx
      exact evalTokens_error_ne_final M (tokenizeJs e) [] err hscan hx
    | ok stack =>
      simp only [hscan]
      cases stack with
      | nil =>
        exact absurd rfl
          (evalTokens_ok_ne_nil M (tokenizeJs e) [] []
            (tokenizeJs_ne_nil e hb2) hscan)
      | cons v rest => cases rest <;> simp

/-- Claim C1, counterexample: the token "1.2.3" has multiple decimal
points, so it does NOT wholly parse under the decimal literal grammar,
yet the evaluator classifies it as a Number-Literal (parseFloat keeps
the longest valid prefix, here 1.2); the claimed equivalence between
classification and whole-token parsing fails. -/
theorem C1_counterexample :
    isNumber "1.2.3" = true ∧ specNumberLiteral "1.2.3" = false := by
  constructor
  · with_unfolding_all rfl
  · with_unfolding_all rfl

/-- Claim C1 (amended): a token is classified as a Number-Literal iff
its longest decimal-literal prefix exists and denotes a finite value:
every token that wholly parses as a finite literal is accepted, but
prefix-parsable tokens such as "1.2.3" or "3abc" are accepted too, while
a bare sign or the overflowing literal "1e309" is not; and any token
that is neither a Number-Literal nor one of the nine operators makes the
evaluator fail with the unknown-token error naming that token. -/
theorem C1_number_classification (M : FloatModel) :
    (∀ t, specNumberLiteral t = true → isNumber t = true)
    ∧ isNumber "1.2.3" = true
    ∧ isNumber "3abc" = true
    ∧ isNumber "-" = false
    ∧ isNumber "1e309" = false
    ∧ (∀ (s : List JsNum) (t : String), isNumber t = false →
        t ∉ SUPPORTED_OPERATORS →
        evalStep M s t = .error (.unknownToken t))
    ∧ evaluateRPN M "3 foo +" = .error (.unknownToken "foo") := by
  refine ⟨?_, by with_unfolding_all rfl, by with_unfolding_all rfl,
    by with_unfolding_all rfl, by with_unfolding_all rfl, ?_,
    by with_unfolding_all rfl⟩
  · intro t h
    unfold specNumberLiteral at h
    unfold isNumber parseFloatJ
    cases hc : parseFloatCore (t.data.dropWhile jsWs) with
    | none => rw [hc] at h; cases h
    | some vr =>
      obtain ⟨v, rest⟩ := vr
      rw [hc] at h
      simp only [Bool.and_eq_true] at h
      exact h.2
  · intro s t h1 h2
    simp [evalStep, h1, h2]

/-- Claim C1 witness: the classification facts at concrete tokens and
the unknown-token failure at a concrete scan state, by the theorem. -/
theorem C1_witness :
    isNumber "3.5" = true
    ∧ evalStep M0 [] "foo" = .error (.unknownToken "foo") :=
  ⟨(C1_number_classification M0).1 "3.5" (by with_unfolding_all rfl),
   (C1_number_classification M0).2.2.2.2.2.1 [] "foo"
     (by with_unfolding_all rfl) (by decide)⟩

/-- Claim C2, counterexample: evaluation of "-2 0.5 ^" succeeds and
returns NaN (negative base, fractional exponent), so the result of a
successful evaluation is not always finite. -/
theorem C2_counterexample :
    evaluateRPN M0 "-2 0.5 ^" = .ok .nan ∧ JsNum.isFinB .nan = false := by
  constructor
  · with_unfolding_all rfl
  · rfl

/-- Claim C2 (amended): every value pushed for a number token is finite,
but operator results are pushed with no finiteness check, so a
successful evaluation may return a non-finite value: "-2 0.5 ^" succeeds
with NaN. -/
theorem C2_value_finiteness (M : FloatModel) :
    (∀ (t : String) (s : List JsNum), isNumber t = true →
      evalStep M s t = .ok (parseFloatJ t :: s)
      ∧ (parseFloatJ t).isFinB = true)
    ∧ evaluateRPN M "-2 0.5 ^" = .ok .nan := by
  refine ⟨?_, by with_unfolding_all rfl⟩
  intro t s h
  exact ⟨by simp [evalStep, h], h⟩

/-- Claim C2 witness: a concrete number token is pushed as a finite
value, by the theorem. -/
theorem C2_witness :
    evalStep M0 [] "5" = .ok [parseFloatJ "5"]
    ∧ (parseFloatJ "5").isFinB = true :=
  (C2_value_finiteness M0).1 "5" [] (by with_unfolding_all rfl)

/-- Claim C3: validate never raises (it is a total function of the
embedding) and returns true exactly when evaluate succeeds. -/
theorem C3_validate_iff (M : FloatModel) (e : String) :
    validateRPN M e = true ↔ ∃ v, evaluateRPN M e = .ok v := by
  unfold validateRPN
  cases h : evaluateRPN M e with
  | ok v => simp
  | error err => simp

/-- Claim C3 witness: a concrete validated expression evaluates
successfully, by the theorem. -/
theorem C3_witness : ∃ v, evaluateRPN M0 "3 4 +" = .ok v :=
  (C3_validate_iff M0 "3 4 +").mp (by with_unfolding_all rfl)

/-- Claim C4: a binary operator pops the most recently pushed value as
b, the next as a, and pushes the single value a op b (left-to-right
operand order); with fewer than two stack values it fails with the
insufficient-operands error; and evaluate "10 3 -" returns 7. -/
theorem C4_binary_operand_order (M : FloatModel) (a b : ℚ)
    (rest : List JsNum) :
    processBinaryOperator M (.fin b :: .fin a :: rest) "+"
        = .ok (roundOvf (a + b) :: rest)
    ∧ processBinaryOperator M (.fin b :: .fin a :: rest) "-"
        = .ok (roundOvf (a - b) :: rest)
    ∧ processBinaryOperator M (.fin b :: .fin a :: rest) "*"
        = .ok (roundOvf (a * b) :: rest)
    ∧ (b ≠ 0 → processBinaryOperator M (.fin b :: .fin a :: rest) "/"
        = .ok (roundOvf (a / b) :: rest))
    ∧ processBinaryOperator M (.fin b :: .fin a :: rest) "^"
        = .ok (powJ M (.fin a) (.fin b) :: rest)
    ∧ (∀ (op : String) (s : List JsNum), s.length < 2 →
        processBinaryOperator M s op = .error (.insufficientOperands op))
    ∧ evaluateRPN M "10 3 -" = .ok (.fin 7) := by
  refine ⟨by rfl, by rfl, by rfl, ?_, by rfl, ?_,
    by with_unfolding_all rfl⟩
  · intro hb
    simp [processBinaryOperator, divJ, hb]
  · intro op s hlen
    rcases s with _ | ⟨x, _ | ⟨y, zs⟩⟩
    · rfl
    · rfl
    · simp at hlen
      omega

/-- Claim C4 witness: division at a concrete two-value stack preserves
the left-to-right operand order, by the theorem. -/
theorem C4_witness :
    processBinaryOperator M0 [JsNum.fin 2, JsNum.fin 8] "/"
      = .ok [roundOvf (8 / 2)] :=
  (C4_binary_operand_order M0 8 2 []).2.2.2.1 (by norm_num)

/-- Claim C5: with two operands available, "/" fails with the
division-by-zero error exactly when the popped divisor b equals 0, and
otherwise pushes a / b; and evaluate "8 0 /" fails with it. -/
theorem C5_division_by_zero (M : FloatModel) (a b : JsNum)
    (rest : List JsNum) :
    (processBinaryOperator M (b :: a :: rest) "/"
        = .error .divisionByZero ↔ b = .fin 0)
    ∧ (b ≠ .fin 0 → processBinaryOperator M (b :: a :: rest) "/"
        = .ok (divJ a b :: rest))
    ∧ evaluateRPN M "8 0 /" = .error .divisionByZero := by
  refine ⟨?_, ?_, by with_unfolding_all rfl⟩
  · by_cases hb : b = .fin 0
    · subst hb
      simp [processBinaryOperator]
    · simp [processBinaryOperator, hb]
  · intro hb
    simp [processBinaryOperator, hb]

/-- Claim C5 witness: the zero-divisor failure at a concrete stack, by
the theorem. -/
theorem C5_witness :
    processBinaryOperator M0 [JsNum.fin 0, JsNum.fin 8] "/"
      = .error .divisionByZero :=
  (C5_division_by_zero M0 (JsNum.fin 8) (JsNum.fin 0) []).1.mpr rfl

/-- Claim C6: sqrt fails with the negative-sqrt error exactly when the
popped operand is negative (under the JS comparison) and otherwise
pushes its square root; sin, cos and tan convert the operand from
degrees via a * (pi / 180) before applying the function; an empty stack
fails with the insufficient-operands error. -/
theorem C6_unary_semantics (M : FloatModel) (a : JsNum)
    (rest : List JsNum) :
    (processUnaryOperator M (a :: rest) "sqrt" = .error .negativeSqrt
      ↔ ltJ a (.fin 0) = true)
    ∧ (ltJ a (.fin 0) = false →
        processUnaryOperator M (a :: rest) "sqrt"
          = .ok (sqrtJ M a :: rest))
    ∧ processUnaryOperator M (a :: rest) "sin"
        = .ok (sinJ M (mulJ a (.fin (piA / 180))) :: rest)
    ∧ processUnaryOperator M (a :: rest) "cos"
        = .ok (cosJ M (mulJ a (.fin (piA / 180))) :: rest)
    ∧ processUnaryOperator M (a :: rest) "tan"
        = .ok (tanJ M (mulJ a (.fin (piA / 180))) :: rest)
    ∧ (∀ op : String, processUnaryOperator M [] op
        = .error (.insufficientOperands op)) := by
  refine ⟨?_, ?_, by rfl, by rfl, by rfl, fun op => by rfl⟩
  · cases hl : ltJ a (.fin 0) <;> simp [processUnaryOperator, hl]
  · intro hl
    simp [processUnaryOperator, hl]

/-- Claim C6 witness: sqrt at a concrete nonnegative operand pushes the
square root, by the theorem. -/
theorem C6_witness :
    processUnaryOperator M0 [JsNum.fin 4] "sqrt"
      = .ok [sqrtJ M0 (JsNum.fin 4)] :=
  (C6_unary_semantics M0 (JsNum.fin 4) []).2.1 (by with_unfolding_all rfl)

/-- Claim C7: after a scan that processes every token without failure,
the evaluator fails with the too-many-operands error when more than one
value remains, with the insufficient-operands error when the stack is
empty, and otherwise returns the single remaining value; and evaluate
"3 4" fails with the too-many-operands error. -/
theorem C7_final_stack_check (M : FloatModel) :
    (∀ (e : String) (s : List JsNum), isBlankJs e = false →
      evalTokens M (tokenizeJs e) [] = .ok s →
        (s = [] → evaluateRPN M e = .error .insufficientOperandsFinal)
        ∧ (∀ v, s = [v] → evaluateRPN M e = .ok v)
        ∧ (∀ v w t, s = v :: w :: t →
            evaluateRPN M e = .error .tooManyOperands))
    ∧ evaluateRPN M "3 4" = .error .tooManyOperands := by
  refine ⟨?_, by with_unfolding_all rfl⟩
  intro e s hb hscan
  refine ⟨?_, ?_, ?_⟩
  · intro h
    subst h
    unfold evaluateRPN
    rw [if_neg (by simp [hb])]
    simp only [hscan]
  · intro v h
    subst h
    unfold evaluateRPN
    rw [if_neg (by simp [hb])]
    simp only [hscan]
  · intro v w t h
    subst h
    unfold evaluateRPN
    rw [if_neg (by simp [hb])]
    simp only [hscan]

/-- Claim C7 witness: a concrete one-value final stack yields that value
as the result, by the theorem. -/
theorem C7_witness : evaluateRPN M0 "3 4 +" = .ok (JsNum.fin 7) :=
  ((C7_final_stack_check M0).1 "3 4 +" [JsNum.fin 7] (by rfl)
    (by with_unfolding_all rfl)).2.1 (JsNum.fin 7) rfl

/-- Claim C8: the scan invariant: if scanning the first i tokens from
the empty stack reaches stack s, then the full scan factors through s,
i.e. after token i the evaluation stack holds exactly the partial
results of the left-to-right scan of tokens 1..i. -/
theorem C8_scan_prefix_invariant (M : FloatModel) (ts : List String)
    (i : ℕ) (s : List JsNum)
    (h : evalTokens M (List.take i ts) [] = .ok s) :
    evalTokens M ts [] = evalTokens M (List.drop i ts) s := by
  conv_lhs => rw [← List.take_append_drop i ts]
  rw [evalTokens_append, h]

/-- Claim C8 witness: the invariant at a concrete expression and split
point, by the theorem. -/
theorem C8_witness :
    evalTokens M0 ["3", "4", "+"] []
      = evalTokens M0 (List.drop 2 ["3", "4", "+"])
          [JsNum.fin 4, JsNum.fin 3] :=
  C8_scan_prefix_invariant M0 ["3", "4", "+"] 2
    [JsNum.fin 4, JsNum.fin 3] (by with_unfolding_all rfl)

/-- Claim C9: after any successfully processed non-empty token sequence
the stack is non-empty, and consequently the end-of-scan empty-stack
branch is unreachable: the evaluator never returns its
insufficient-operands failure. -/
theorem C9_stack_nonempty_no_final_error :
    (∀ (M : FloatModel) (ts : List String) (s s2 : List JsNum),
      ts ≠ [] → evalTokens M ts s = .ok s2 → s2 ≠ [])
    ∧ (∀ (M : FloatModel) (e : String),
        evaluateRPN M e ≠ .error .insufficientOperandsFinal) :=
  ⟨fun M ts s s2 => evalTokens_ok_ne_nil M ts s s2,
   fun M e => evaluateRPN_ne_final M e⟩

/-- Claim C9 witness: the non-empty-stack fact at a concrete scan and
the unreachability of the final error at a lone operator, by the
theorem. -/
theorem C9_witness :
    ([JsNum.fin 3] ≠ ([] : List JsNum))
    ∧ evaluateRPN M0 "+" ≠ .error .insufficientOperandsFinal :=
  ⟨C9_stack_nonempty_no_final_error.1 M0 ["3"] [] [JsNum.fin 3]
      (by decide) (by with_unfolding_all rfl),
   C9_stack_nonempty_no_final_error.2 M0 "+"⟩

/-- Claim C10: the trace function is total on every input string
(vacuously, being a function of the embedding), silently skips tokens
that are neither numbers nor operators, records steps with
undefined-derived NaN results for operators applied to too few stack
values instead of failing, and records non-finite results for division
by zero and negative square roots instead of errors. -/
theorem C10_trace_unguarded (M : FloatModel) :
    (∀ (s : List JsNum) (ts : List String) (t : String),
      isNumber t = false → t ∉ SUPPORTED_OPERATORS →
        stepsAux M (t :: ts) s = stepsAux M ts s)
    ∧ getEvaluationSteps M "" = []
    ∧ getEvaluationSteps M "+"
        = [{ token := "+", stack := [.nan],
             action := "Apply undefined + undefined" }]
    ∧ getEvaluationSteps M "8 0 /"
        = [{ token := "8", stack := [.fin 8], action := "Push 8" },
           { token := "0", stack := [.fin 0, .fin 8], action := "Push 0" },
           { token := "/", stack := [.inf], action := "Apply 8 / 0" }]
    ∧ getEvaluationSteps M "-4 sqrt"
        = [{ token := "-4", stack := [.fin (-4)], action := "Push -4" },
           { token := "sqrt", stack := [.nan],
             action := "Apply sqrt to -4" }] := by
  refine ⟨?_, by rfl, by with_unfolding_all rfl,
    by with_unfolding_all rfl, by with_unfolding_all rfl⟩
  intro s ts t h1 h2
  have hstep : stepOnce M s t = (s, none) := by
    simp [stepOnce, h1, h2]
  simp [stepsAux, hstep]

/-- Claim C10 witness: a concrete unknown token is skipped with no step
recorded, by the theorem. -/
theorem C10_witness : stepsAux M0 ["foo"] [] = stepsAux M0 [] [] :=
  (C10_trace_unguarded M0).1 [] [] "foo" (by with_unfolding_all rfl)
    (by decide)

end RPN
